import Mathlib

/-!
Verification development for the date-slot-buddy booking calendar.

The repository's core (bookingService.ts and BookingCalendar.tsx) is embedded
shallowly below.  JavaScript `Date` values are modelled by their local civil
fields (year, month, day) plus the wall-clock milliseconds within the day;
the repository runs in a single fixed UTC+05:30 offset, so local civil time
is well defined and free of DST adjustments.  `Date.prototype.getTime`
ordering is recovered through the standard civil-to-day-number conversion
(Gregorian calendar, days since 1970-01-01).

String-valued date tokens are produced exactly as the source does
(`String(year)` plus `padStart(2, '0')` fields), using Lean's `Nat.repr`,
which agrees with JavaScript `String(n)` on natural numbers.
-/

namespace DateSlotBuddy

/-! ### Decimal strings: bridging `Nat.repr` with `Nat.digits` -/

/-- Numeric value of a decimal digit character, as JavaScript's parser reads
it (`charCodeAt - 48`). -/
def charVal (c : Char) : Nat := c.toNat - 48

/-- Reads a run of decimal digit characters as a number, most significant
first, the way a positional date-string parser does. -/
def charsToNat (cs : List Char) : Nat :=
  cs.foldl (fun a c => a * 10 + charVal c) 0

theorem charVal_digitChar (d : Nat) (h : d < 10) : charVal (Nat.digitChar d) = d := by
  interval_cases d <;> decide

theorem charsToNat_append (cs ds : List Char) :
    charsToNat (cs ++ ds) = ds.foldl (fun a c => a * 10 + charVal c) (charsToNat cs) := by
  simp [charsToNat, List.foldl_append]

theorem charsToNat_cons_zero (cs : List Char) :
    charsToNat ('0' :: cs) = charsToNat cs := by
  simp [charsToNat, charVal]

theorem charsToNat_reverse_map_digitChar (l : List Nat) (hl : ∀ d ∈ l, d < 10) :
    charsToNat ((l.reverse.map Nat.digitChar)) = Nat.ofDigits 10 l := by
  unfold charsToNat
  rw [List.map_reverse, List.foldl_reverse]
  induction l with
  | nil => simp [Nat.ofDigits]
  | cons d t ih =>
      simp only [List.map_cons, List.foldr_cons, Nat.ofDigits_cons]
      rw [ih (fun x hx => hl x (by simp [hx]))]
      rw [charVal_digitChar d (hl d (by simp))]
      ring

theorem toDigitsCore_eq_digits :
    ∀ (n f : Nat) (acc : List Char), n ≤ f →
      Nat.toDigitsCore 10 (f + 1) n acc =
        (if n = 0 then ['0'] else (Nat.digits 10 n).reverse.map Nat.digitChar) ++ acc := by
  intro n
  induction n using Nat.strong_induction_on with
  | _ n ih =>
    intro f acc hf
    rcases Nat.eq_zero_or_pos n with h0 | hpos
    · subst h0
      simp only [Nat.toDigitsCore, if_pos rfl]
      simp [Nat.toDigitsCore]
      decide
    · have hne : n ≠ 0 := Nat.pos_iff_ne_zero.mp hpos
      simp only [if_neg hne]
      rw [Nat.digits_def' (by norm_num : (1:Nat) < 10) hpos]
      by_cases hq : n / 10 = 0
      · have hstep : Nat.toDigitsCore 10 (f + 1) n acc = Nat.digitChar (n % 10) :: acc := by
          simp [Nat.toDigitsCore, hq]
        rw [hstep, hq]
        simp
      · have hqlt : n / 10 < n := Nat.div_lt_self hpos (by norm_num)
        obtain ⟨f', rfl⟩ : ∃ f', f = f' + 1 := ⟨f - 1, by omega⟩
        have hstep : Nat.toDigitsCore 10 (f' + 1 + 1) n acc =
            Nat.toDigitsCore 10 (f' + 1) (n / 10) (Nat.digitChar (n % 10) :: acc) := by
          simp [Nat.toDigitsCore, hq]
        rw [hstep, ih (n / 10) hqlt f' (Nat.digitChar (n % 10) :: acc) (by omega)]
        simp only [if_neg hq]
        simp [List.reverse_cons, List.map_append]

theorem repr_data (n : Nat) :
    (Nat.repr n).data =
      (if n = 0 then ['0'] else (Nat.digits 10 n).reverse.map Nat.digitChar) := by
  show (Nat.toDigits 10 n).asString.data = _
  unfold Nat.toDigits
  rw [toDigitsCore_eq_digits n n [] (Nat.le_refl n)]
  simp [List.asString]

theorem charsToNat_repr (n : Nat) : charsToNat (Nat.repr n).data = n := by
  rw [repr_data]
  rcases Nat.eq_zero_or_pos n with h0 | hpos
  · subst h0; decide
  · rw [if_neg (Nat.pos_iff_ne_zero.mp hpos)]
    rw [charsToNat_reverse_map_digitChar _
      (fun d hd => Nat.digits_lt_base (by norm_num) hd)]
    exact Nat.ofDigits_digits 10 n

theorem repr_length (n : Nat) (hn : n ≠ 0) :
    (Nat.repr n).length = Nat.log 10 n + 1 := by
  show (Nat.repr n).data.length = _
  rw [repr_data, if_neg hn]
  rw [List.length_map, List.length_reverse]
  exact Nat.digits_len 10 n (by norm_num) hn

theorem repr_length_of_lt (n k : Nat) (h1 : 10 ^ k ≤ n) (h2 : n < 10 ^ (k + 1)) :
    (Nat.repr n).length = k + 1 := by
  have hn : n ≠ 0 := by
    have : (0:Nat) < 10 ^ k := Nat.pos_pow_of_pos k (by norm_num)
    omega
  rw [repr_length n hn, Nat.log_eq_of_pow_le_of_lt_pow h1 h2]

/-! ### The `Date` model

A JavaScript `Date`, observed in the application's single fixed UTC+05:30
offset, is determined by its local civil fields and the wall-clock
milliseconds elapsed within the day.  `getTime` ordering is recovered via the
standard civil-date to day-number conversion (proleptic Gregorian calendar;
all divisors are positive, so Lean's Euclidean `/` on `Int` coincides with
the mathematical floor division the conversion requires). -/

structure JSDate where
  year : Nat
  month : Nat
  day : Nat
  msInDay : Nat
deriving DecidableEq

/-- Milliseconds in one civil day (fixed-offset zone: no DST transitions). -/
def msPerDay : Int := 86400000

/-- Day number of a civil date, counted from 1970-01-01 (day 0), on the
proleptic Gregorian calendar. -/
def daysFromCivil (y m d : Nat) : Int :=
  let yAdj : Int := (y : Int) - (if m ≤ 2 then 1 else 0)
  let era : Int := yAdj / 400
  let yoe : Int := yAdj - era * 400
  let mp : Int := if 2 < m then (m : Int) - 3 else (m : Int) + 9
  let doy : Int := (153 * mp + 2) / 5 + (d : Int) - 1
  let doe : Int := yoe * 365 + yoe / 4 - yoe / 100 + doy
  era * 146097 + doe - 719468

example : daysFromCivil 1970 1 1 = 0 := by decide
example : daysFromCivil 1970 1 2 = 1 := by decide
example : daysFromCivil 1969 12 31 = -1 := by decide
example : daysFromCivil 2000 3 1 = 11017 := by decide
example : daysFromCivil 2026 1 24 = 20477 := by decide

/-- The local calendar day a `Date` falls on. -/
def dayNumber (dt : JSDate) : Int := daysFromCivil dt.year dt.month dt.day

/-- `Date.prototype.getTime`, up to the fixed additive zone offset (which
preserves ordering and differences). -/
def getTime (dt : JSDate) : Int := dayNumber dt * msPerDay + (dt.msInDay : Int)

/-- date-fns `isSameDay(a, b)`: the two dates' local starts of day coincide,
i.e. they fall on the same local calendar day. -/
def isSameDay (a b : JSDate) : Bool := dayNumber a == dayNumber b

/-- Whether February has 29 days in year `y` (Gregorian rule), as date
arithmetic uses it. -/
def isLeapYear (y : Nat) : Bool :=
  (y % 4 == 0 && y % 100 != 0) || y % 400 == 0

/-- Number of days in month `m` of year `y`. -/
def daysInMonth (y m : Nat) : Nat :=
  if m = 2 then (if isLeapYear y then 29 else 28)
  else if m = 4 ∨ m = 6 ∨ m = 9 ∨ m = 11 then 30
  else 31

/-- date-fns `addDays(dt, 1)`: the next civil day, keeping the wall-clock
time of day (exact in a fixed-offset zone). -/
def addOneDay (dt : JSDate) : JSDate :=
  if dt.day < daysInMonth dt.year dt.month then
    ⟨dt.year, dt.month, dt.day + 1, dt.msInDay⟩
  else if dt.month < 12 then
    ⟨dt.year, dt.month + 1, 1, dt.msInDay⟩
  else
    ⟨dt.year + 1, 1, 1, dt.msInDay⟩

example : addOneDay ⟨2026, 1, 31, 0⟩ = ⟨2026, 2, 1, 0⟩ := by decide
example : addOneDay ⟨2024, 2, 28, 0⟩ = ⟨2024, 2, 29, 0⟩ := by decide
example : isSameDay (addOneDay ⟨2026, 1, 5, 0⟩) ⟨2026, 1, 6, 120⟩ = true := by decide

/-! ### The date token codec (bookingService.ts)

`formatDateToLocal` (bookingService.ts lines 8-13) builds
`${year}-${month}-${day}` from the local civil fields, with month and day
zero-padded to two characters via `padStart(2, '0')` and the year printed by
string interpolation (`String(year)`, unpadded). -/

/-- `String(n).padStart(2, '0')`. -/
def pad2 (n : Nat) : String :=
  if n < 10 then "0" ++ Nat.repr n else Nat.repr n

example : pad2 5 = "05" := by decide
example : pad2 11 = "11" := by decide

/-- bookingService.ts `formatDateToLocal`: format a date to `YYYY-MM-DD`
using the local (not UTC) civil fields. -/
def formatDateToLocal (dt : JSDate) : String :=
  Nat.repr dt.year ++ "-" ++ pad2 dt.month ++ "-" ++ pad2 dt.day

example : formatDateToLocal ⟨2026, 1, 24, 4800000⟩ = "2026-01-24" := by decide
example : formatDateToLocal ⟨2026, 1, 24, 0⟩ = "2026-01-24" := by decide

/-! Positional field extraction of an ISO-like local datetime string
`YYYY-MM-DDTHH:mm:ss`, as the JavaScript `Date` constructor reads it. -/

def parseYearChars (cs : List Char) : Nat := charsToNat (cs.take 4)

def parseMonthChars (cs : List Char) : Nat := charsToNat ((cs.drop 5).take 2)

def parseDayChars (cs : List Char) : Nat := charsToNat ((cs.drop 8).take 2)

def parseHourChars (cs : List Char) : Nat := charsToNat ((cs.drop 11).take 2)

def parseMinuteChars (cs : List Char) : Nat := charsToNat ((cs.drop 14).take 2)

def parseSecondChars (cs : List Char) : Nat := charsToNat ((cs.drop 17).take 2)

/-- fetchBookings' decode step (bookingService.ts line 32):
`new Date(token + 'T00:00:00')`.  Appending `T00:00:00` makes the JavaScript
parser interpret the token as a *local* datetime; the constructor reads the
fields positionally. -/
def decodeStoredDate (token : String) : JSDate :=
  let cs := (token ++ "T00:00:00").data
  { year := parseYearChars cs
    month := parseMonthChars cs
    day := parseDayChars cs
    msInDay :=
      (parseHourChars cs * 3600 + parseMinuteChars cs * 60 + parseSecondChars cs) * 1000 }

example : decodeStoredDate "2026-01-24" = ⟨2026, 1, 24, 0⟩ := by decide
example : decodeStoredDate "2025-11-20" = ⟨2025, 11, 20, 0⟩ := by decide

/-! ### The booking store (bookingService.ts CRUD)

`BookingRow` mirrors the Supabase `bookings` row as the service reads and
writes it.  The persistent store is the list of rows; `created_at` ordering
is irrelevant to the claims and not modelled. -/

structure BookingRow where
  id : String
  dates : List String
  full_name : String
  phone : String
  price : Int
  details : String
deriving DecidableEq

/-- bookingService.ts `checkDateAvailability` (lines 141-179): formats the
proposed dates with `formatDateToLocal`, asks the store for rows whose
`dates` array overlaps the formatted strings (`.overlaps`), drops the row
whose id equals `excludeBookingId` (`.neq`), and reports `true` (booked)
exactly when at least one row remains. -/
def checkDateAvailability (store : List BookingRow) (dates : List JSDate)
    (excludeBookingId : Option String) : Bool :=
  let dateStrings := dates.map formatDateToLocal
  let overlapping :=
    store.filter (fun (row : BookingRow) => row.dates.any (fun t => dateStrings.contains t))
  let rows :=
    match excludeBookingId with
    | some ex => overlapping.filter (fun (row : BookingRow) => row.id != ex)
    | none => overlapping
  decide (0 < rows.length)

/-- bookingService.ts `createBooking` (lines 43-77) as a store transition:
check availability first and throw (writing nothing) on a conflict;
otherwise insert a row whose `dates` are the `formatDateToLocal` images of
the draft's dates.  The store-assigned id is a parameter. -/
def createBooking (store : List BookingRow) (dates : List JSDate)
    (fullName phoneNumber : String) (price : Int) (otherDetails : String)
    (newId : String) : List BookingRow × Except String BookingRow :=
  if checkDateAvailability store dates none then
    (store, Except.error "One or more selected dates are already booked")
  else
    let row : BookingRow :=
      ⟨newId, dates.map formatDateToLocal, fullName, phoneNumber, price, otherDetails⟩
    (store ++ [row], Except.ok row)

/-- bookingService.ts `updateBooking` (lines 82-119) as a store transition:
check availability excluding the booking itself and throw (writing nothing)
on a conflict; otherwise overwrite the row with the given id (`.single()`
fails, leaving the store unchanged, when the id does not exist). -/
def updateBooking (store : List BookingRow) (id : String) (dates : List JSDate)
    (fullName phoneNumber : String) (price : Int) (otherDetails : String) :
    List BookingRow × Except String BookingRow :=
  if checkDateAvailability store dates (some id) then
    (store, Except.error "One or more selected dates are already booked by another booking")
  else if store.any (fun row => row.id == id) then
    let newRow : BookingRow :=
      ⟨id, dates.map formatDateToLocal, fullName, phoneNumber, price, otherDetails⟩
    (store.map (fun row => if row.id == id then newRow else row), Except.ok newRow)
  else
    (store, Except.error "booking not found")

/-! ### Structure of the written tokens -/

theorem pad2_length (n : Nat) (h : n < 100) : (pad2 n).length = 2 := by
  unfold pad2
  by_cases h10 : n < 10
  · rw [if_pos h10, String.length_append]
    rcases Nat.eq_zero_or_pos n with h0 | hpos
    · subst h0; decide
    · rw [repr_length_of_lt n 0 (by omega) (by norm_num; omega)]
      decide
  · rw [if_neg h10]
    rw [repr_length_of_lt n 1 (by omega) (by norm_num; omega)]

theorem pad2_charsToNat (n : Nat) (h : n < 100) : charsToNat (pad2 n).data = n := by
  unfold pad2
  by_cases h10 : n < 10
  · rw [if_pos h10, String.data_append]
    show charsToNat ('0' :: (Nat.repr n).data) = n
    rw [charsToNat_cons_zero, charsToNat_repr]
  · rw [if_neg h10, charsToNat_repr]

theorem repr_year_length (y : Nat) (h1 : 1000 ≤ y) (h2 : y ≤ 9999) :
    (Nat.repr y).length = 4 := by
  have := repr_length_of_lt y 3 (by omega) (by norm_num; omega)
  simpa using this

theorem string_length_eq_data_length (s : String) : s.length = s.data.length := rfl

theorem formatDateToLocal_data (dt : JSDate) :
    (formatDateToLocal dt).data =
      (Nat.repr dt.year).data ++
        '-' :: ((pad2 dt.month).data ++ '-' :: (pad2 dt.day).data) := by
  unfold formatDateToLocal
  simp [String.data_append]

theorem formatDateToLocal_length (dt : JSDate)
    (hy1 : 1000 ≤ dt.year) (hy2 : dt.year ≤ 9999)
    (hm : dt.month < 100) (hd : dt.day < 100) :
    (formatDateToLocal dt).length = 10 := by
  unfold formatDateToLocal
  rw [String.length_append, String.length_append, String.length_append,
    String.length_append]
  rw [repr_year_length dt.year hy1 hy2, pad2_length dt.month hm, pad2_length dt.day hd]
  rfl

/-- Decoding a token written by `formatDateToLocal` recovers the civil date
exactly, and always yields midnight (`00:00`): the write path stores no time
component, so the wall-clock time of the encoded date is lost. -/
theorem decodeStoredDate_formatDateToLocal (dt : JSDate)
    (hy1 : 1000 ≤ dt.year) (hy2 : dt.year ≤ 9999)
    (hm : dt.month < 100) (hd : dt.day < 100) :
    decodeStoredDate (formatDateToLocal dt) = ⟨dt.year, dt.month, dt.day, 0⟩ := by
  have hy4 : (Nat.repr dt.year).data.length = 4 := repr_year_length dt.year hy1 hy2
  have hm2 : (pad2 dt.month).data.length = 2 := pad2_length dt.month hm
  have hd2 : (pad2 dt.day).data.length = 2 := pad2_length dt.day hd
  set y4 := (Nat.repr dt.year).data with hy4def
  set m2 := (pad2 dt.month).data with hm2def
  set d2 := (pad2 dt.day).data with hd2def
  have hcs : (formatDateToLocal dt ++ "T00:00:00").data =
      y4 ++ '-' :: (m2 ++ '-' :: (d2 ++ ['T','0','0',':','0','0',':','0','0'])) := by
    rw [String.data_append, formatDateToLocal_data]
    simp
  have htake4 : ((formatDateToLocal dt ++ "T00:00:00").data).take 4 = y4 := by
    rw [hcs]
    exact List.take_left' hy4
  have hdrop5 : ((formatDateToLocal dt ++ "T00:00:00").data).drop 5 =
      m2 ++ '-' :: (d2 ++ ['T','0','0',':','0','0',':','0','0']) := by
    rw [hcs, List.append_cons y4 '-']
    exact List.drop_left' (by simp [hy4])
  have hdrop8 : ((formatDateToLocal dt ++ "T00:00:00").data).drop 8 =
      d2 ++ ['T','0','0',':','0','0',':','0','0'] := by
    have : ((formatDateToLocal dt ++ "T00:00:00").data).drop 8 =
        (((formatDateToLocal dt ++ "T00:00:00").data).drop 5).drop 3 := by
      rw [List.drop_drop]
    rw [this, hdrop5, List.append_cons m2 '-']
    exact List.drop_left' (by simp [hm2])
  have hdrop11 : ((formatDateToLocal dt ++ "T00:00:00").data).drop 11 =
      ['0','0',':','0','0',':','0','0'] := by
    have : ((formatDateToLocal dt ++ "T00:00:00").data).drop 11 =
        (((formatDateToLocal dt ++ "T00:00:00").data).drop 8).drop 3 := by
      rw [List.drop_drop]
    rw [this, hdrop8, List.append_cons d2 'T']
    exact List.drop_left' (by simp [hd2])
  have hyear : parseYearChars ((formatDateToLocal dt ++ "T00:00:00").data) = dt.year := by
    unfold parseYearChars
    rw [htake4, hy4def, charsToNat_repr]
  have hmonth : parseMonthChars ((formatDateToLocal dt ++ "T00:00:00").data) = dt.month := by
    unfold parseMonthChars
    rw [hdrop5, List.take_left' hm2, hm2def, pad2_charsToNat dt.month hm]
  have hday : parseDayChars ((formatDateToLocal dt ++ "T00:00:00").data) = dt.day := by
    unfold parseDayChars
    rw [hdrop8, List.take_left' hd2, hd2def, pad2_charsToNat dt.day hd]
  have hhour : parseHourChars ((formatDateToLocal dt ++ "T00:00:00").data) = 0 := by
    unfold parseHourChars
    rw [hdrop11]
    decide
  have hminute : parseMinuteChars ((formatDateToLocal dt ++ "T00:00:00").data) = 0 := by
    unfold parseMinuteChars
    have : ((formatDateToLocal dt ++ "T00:00:00").data).drop 14 =
        (((formatDateToLocal dt ++ "T00:00:00").data).drop 11).drop 3 := by
      rw [List.drop_drop]
    rw [this, hdrop11]
    decide
  have hsecond : parseSecondChars ((formatDateToLocal dt ++ "T00:00:00").data) = 0 := by
    unfold parseSecondChars
    have : ((formatDateToLocal dt ++ "T00:00:00").data).drop 17 =
        (((formatDateToLocal dt ++ "T00:00:00").data).drop 11).drop 6 := by
      rw [List.drop_drop]
    rw [this, hdrop11]
    decide
  unfold decodeStoredDate
  simp only
  rw [hyear, hmonth, hday, hhour, hminute, hsecond]

/-- Two dates with four-digit years and in-range fields that format to the
same token have the same civil fields. -/
theorem formatDateToLocal_inj (a b : JSDate)
    (ha1 : 1000 ≤ a.year) (ha2 : a.year ≤ 9999) (ham : a.month < 100) (had : a.day < 100)
    (hb1 : 1000 ≤ b.year) (hb2 : b.year ≤ 9999) (hbm : b.month < 100) (hbd : b.day < 100)
    (h : formatDateToLocal a = formatDateToLocal b) :
    a.year = b.year ∧ a.month = b.month ∧ a.day = b.day := by
  have ha := decodeStoredDate_formatDateToLocal a ha1 ha2 ham had
  have hb := decodeStoredDate_formatDateToLocal b hb1 hb2 hbm hbd
  rw [h, hb] at ha
  simp only [JSDate.mk.injEq] at ha
  exact ⟨ha.1.symm, ha.2.1.symm, ha.2.2.1.symm⟩

/-! ### Availability-check characterizations -/

theorem contains_of_mem {l : List String} {a : String} (h : a ∈ l) :
    l.contains a = true := by
  simpa using h

theorem checkDateAvailability_true_of_collision (store : List BookingRow)
    (dates : List JSDate) (excl : Option String) (row : BookingRow)
    (hrow : row ∈ store) (hexcl : ∀ ex, excl = some ex → row.id ≠ ex)
    (t : String) (ht : t ∈ row.dates) (htok : t ∈ dates.map formatDateToLocal) :
    checkDateAvailability store dates excl = true := by
  have hover : row ∈ store.filter
      (fun (r : BookingRow) => r.dates.any (fun u => (dates.map formatDateToLocal).contains u)) := by
    rw [List.mem_filter]
    refine ⟨hrow, ?_⟩
    rw [List.any_eq_true]
    exact ⟨t, ht, contains_of_mem htok⟩
  unfold checkDateAvailability
  cases excl with
  | none =>
      simp only [decide_eq_true_eq, List.length_pos]
      exact List.ne_nil_of_mem hover
  | some ex =>
      simp only [decide_eq_true_eq, List.length_pos]
      have hexr : row.id ≠ ex := hexcl ex rfl
      have : row ∈ (store.filter
          (fun (r : BookingRow) => r.dates.any
            (fun u => (dates.map formatDateToLocal).contains u))).filter
          (fun (r : BookingRow) => r.id != ex) := by
        rw [List.mem_filter]
        exact ⟨hover, by simpa using hexr⟩
      exact List.ne_nil_of_mem this

theorem checkDateAvailability_false_of_only_self (store : List BookingRow)
    (dates : List JSDate) (bid : String)
    (honly : ∀ row ∈ store,
      row.dates.any (fun t => (dates.map formatDateToLocal).contains t) = true → row.id = bid) :
    checkDateAvailability store dates (some bid) = false := by
  unfold checkDateAvailability
  simp only [decide_eq_false_iff_not, Nat.not_lt, Nat.le_zero, List.length_eq_zero]
  rw [List.filter_eq_nil_iff]
  intro row hrow
  rw [List.mem_filter] at hrow
  have hid : row.id = bid := honly row hrow.1 hrow.2
  simp [hid]

/-! ### Concrete instances used in counterexamples and witnesses -/

/-- A stored booking occupying 2026-01-24, as `createBooking` writes it. -/
def demoRow : BookingRow := ⟨"b1", ["2026-01-24"], "Asha", "9876543210", 1500, ""⟩

/-- 2026-01-24 at wall-clock 01:20. -/
def slot0120 : JSDate := ⟨2026, 1, 24, 4800000⟩

/-- 2026-01-24 at wall-clock 02:00. -/
def slot0200 : JSDate := ⟨2026, 1, 24, 7200000⟩

/-! ### Claim C1 -/

/-- Claim C1 counterexample: the claim asserts that a proposed slot on the
same calendar date as an existing booking's slot but with a *different*
start time is accepted (`checkDateAvailability = false`).  On the code it is
rejected: with an existing booking occupying 2026-01-24 (stored token
`"2026-01-24"`, written from a slot at 01:20), a proposed slot on 2026-01-24
at 02:00 is reported booked, because `formatDateToLocal` discards the time
of day entirely. -/
theorem c1_counterexample :
    checkDateAvailability [demoRow] [slot0200] none = true := by decide

/-- Claim C1 (amended): `checkDateAvailability` rejects a proposed slot
whose calendar date equals the calendar date of a stored slot of a
non-excluded existing booking, *regardless of either slot's start time*:
tokens are date-only, so the same-date-same-time case is rejected as the
claim states, but the same-date-different-time case is rejected as well
rather than accepted. -/
theorem c1_same_date_always_rejected (store : List BookingRow)
    (dates : List JSDate) (excl : Option String) (row : BookingRow)
    (hrow : row ∈ store) (hexcl : ∀ ex, excl = some ex → row.id ≠ ex)
    (e p : JSDate) (he : formatDateToLocal e ∈ row.dates) (hp : p ∈ dates)
    (hy : p.year = e.year) (hm : p.month = e.month) (hd : p.day = e.day) :
    checkDateAvailability store dates excl = true := by
  have hpe : formatDateToLocal p = formatDateToLocal e := by
    unfold formatDateToLocal
    rw [hy, hm, hd]
  refine checkDateAvailability_true_of_collision store dates excl row hrow hexcl
    (formatDateToLocal e) he ?_
  rw [← hpe]
  exact List.mem_map_of_mem formatDateToLocal hp

/-- Witness for `c1_same_date_always_rejected` at the same-date-same-time
instance of the claim. -/
theorem c1_witness :
    checkDateAvailability [demoRow] [slot0120] none = true :=
  c1_same_date_always_rejected [demoRow] [slot0120] none demoRow (by decide)
    (by intro ex h; cases h) slot0120 slot0120 (by decide) (by decide)
    rfl rfl rfl

/-! ### Claim C2 -/

/-- Claim C2 counterexample: the token `createBooking` writes for the slot
2026-01-24 01:20 is the 10-character date-only string `"2026-01-24"`, not a
25-character `YYYY-MM-DDTHH:mm:ss+05:30` token as the claim asserts. -/
theorem c2_counterexample :
    (createBooking [] [slot0120] "Asha" "9876543210" 1500 "" "b1").1 =
      [demoRow] ∧
    ("2026-01-24" : String).length = 10 ∧ ("2026-01-24" : String).length ≠ 25 := by
  decide

/-- Claim C2 (amended): every token written to the store by
`createBooking`/`updateBooking` is the date-only form `YYYY-MM-DD` — exactly
10 characters for the four-digit years the calendar handles — never the
25-character canonical datetime form. -/
theorem c2_written_tokens_date_only (store : List BookingRow) (dates : List JSDate)
    (hb : ∀ d ∈ dates, 1000 ≤ d.year ∧ d.year ≤ 9999 ∧ d.month < 100 ∧ d.day < 100)
    (fullName phoneNumber : String) (price : Int) (otherDetails : String)
    (newId id : String) :
    (∀ tok ∈ dates.map formatDateToLocal, tok.length = 10) ∧
    (checkDateAvailability store dates none = false →
      (createBooking store dates fullName phoneNumber price otherDetails newId).1 =
        store ++ [⟨newId, dates.map formatDateToLocal, fullName, phoneNumber, price, otherDetails⟩]) ∧
    (checkDateAvailability store dates (some id) = false →
      store.any (fun row => row.id == id) = true →
      (updateBooking store id dates fullName phoneNumber price otherDetails).1 =
        store.map (fun row => if row.id == id then
          ⟨id, dates.map formatDateToLocal, fullName, phoneNumber, price, otherDetails⟩
          else row)) := by
  refine ⟨?_, ?_, ?_⟩
  · intro tok htok
    rw [List.mem_map] at htok
    obtain ⟨d, hd, rfl⟩ := htok
    obtain ⟨h1, h2, h3, h4⟩ := hb d hd
    exact formatDateToLocal_length d h1 h2 h3 h4
  · intro hfree
    unfold createBooking
    rw [hfree]
    simp
  · intro hfree hex
    unfold updateBooking
    rw [hfree, hex]
    simp

/-- Witness for `c2_written_tokens_date_only` on a concrete one-slot
create. -/
theorem c2_witness :
    (∀ tok ∈ [slot0120].map formatDateToLocal, tok.length = 10) ∧
    (createBooking [] [slot0120] "Asha" "9876543210" 1500 "" "b1").1 = [demoRow] := by
  have h := c2_written_tokens_date_only [] [slot0120] (by decide)
    "Asha" "9876543210" 1500 "" "b1" "b1"
  refine ⟨h.1, ?_⟩
  have h2 := h.2.1 (by decide)
  simpa using h2

/-! ### Claim C3 -/

/-- Claim C3 counterexample: encoding the pair (2026-01-24, 01:20) and
decoding the persisted token yields (2026-01-24, 00:00), not
(2026-01-24, 01:20): the `HH:mm` component is not preserved by the
round-trip, contradicting the claim. -/
theorem c3_counterexample :
    decodeStoredDate (formatDateToLocal slot0120) = ⟨2026, 1, 24, 0⟩ ∧
    (⟨2026, 1, 24, 0⟩ : JSDate) ≠ slot0120 := by decide

/-- Claim C3 (amended): for every date slot (with a four-digit year and
in-range month/day fields), decoding the persisted token produced by
encoding it recovers the calendar date exactly, but the time component
always decodes to `00:00` — only the date half of the round-trip holds. -/
theorem c3_roundtrip_date_only (dt : JSDate)
    (hy1 : 1000 ≤ dt.year) (hy2 : dt.year ≤ 9999)
    (hm : dt.month < 100) (hd : dt.day < 100) :
    decodeStoredDate (formatDateToLocal dt) = ⟨dt.year, dt.month, dt.day, 0⟩ :=
  decodeStoredDate_formatDateToLocal dt hy1 hy2 hm hd

/-- Witness for `c3_roundtrip_date_only` at 2026-01-24 01:20. -/
theorem c3_witness :
    decodeStoredDate (formatDateToLocal slot0120) = ⟨2026, 1, 24, 0⟩ :=
  c3_roundtrip_date_only slot0120 (by decide) (by decide) (by decide) (by decide)

/-! ### Claim C4 -/

/-- Claim C4: when the only booking whose stored tokens collide with the
proposal is the booking being edited itself, `checkDateAvailability` with
`excludeBookingId` equal to that booking's id reports the slots available
(returns `false`). -/
theorem c4_exclude_self_available (store : List BookingRow) (dates : List JSDate)
    (bid : String)
    (honly : ∀ row ∈ store,
      row.dates.any (fun t => (dates.map formatDateToLocal).contains t) = true →
        row.id = bid) :
    checkDateAvailability store dates (some bid) = false :=
  checkDateAvailability_false_of_only_self store dates bid honly

/-- Witness for `c4_exclude_self_available`: editing the booking that owns
2026-01-24 against a same-day proposal is reported available. -/
theorem c4_witness :
    checkDateAvailability [demoRow] [slot0200] (some "b1") = false :=
  c4_exclude_self_available [demoRow] [slot0200] "b1" (by decide)

/-! ### Claim C5 -/

/-- Claim C5: when some *other* existing booking's stored tokens collide
with the draft's slots, `createBooking` and `updateBooking` both fail with
the slot-conflict rejection and return the store unchanged: nothing is
written on the error path. -/
theorem c5_conflict_no_write (store : List BookingRow) (dates : List JSDate)
    (other : BookingRow) (hmem : other ∈ store) (bid : String) (hne : other.id ≠ bid)
    (t : String) (ht : t ∈ other.dates) (htok : t ∈ dates.map formatDateToLocal)
    (fullName phoneNumber : String) (price : Int) (otherDetails : String)
    (newId : String) :
    createBooking store dates fullName phoneNumber price otherDetails newId =
      (store, Except.error "One or more selected dates are already booked") ∧
    updateBooking store bid dates fullName phoneNumber price otherDetails =
      (store, Except.error "One or more selected dates are already booked by another booking") := by
  have h1 : checkDateAvailability store dates none = true :=
    checkDateAvailability_true_of_collision store dates none other hmem
      (by intro ex h; cases h) t ht htok
  have h2 : checkDateAvailability store dates (some bid) = true :=
    checkDateAvailability_true_of_collision store dates (some bid) other hmem
      (by intro ex h; cases h; exact hne) t ht htok
  constructor
  · unfold createBooking
    rw [h1]
    simp
  · unfold updateBooking
    rw [h2]
    simp

/-- Witness for `c5_conflict_no_write`: a draft proposing 2026-01-24 while
another booking `"b1"` occupies it is rejected by both create and update,
leaving the store unchanged. -/
theorem c5_witness :
    createBooking [demoRow] [slot0120] "Ravi" "9123456789" 2500 "" "b2" =
      ([demoRow], Except.error "One or more selected dates are already booked") ∧
    updateBooking [demoRow] "b2" [slot0120] "Ravi" "9123456789" 2500 "" =
      ([demoRow], Except.error "One or more selected dates are already booked by another booking") :=
  c5_conflict_no_write [demoRow] [slot0120] demoRow (by decide) "b2" (by decide)
    "2026-01-24" (by decide) (by decide) "Ravi" "9123456789" 2500 "" "b2"

/-! ### The calendar selection controller (BookingCalendar.tsx)

The current component (the later of the two versions in the file) keeps the
in-progress `selectedDates` list.  `handleDateSelect` (lines 510-528):
clicking a booked date opens the per-date bookings dialog without touching
the selection; clicking a selected date removes every entry of that calendar
day; clicking a new date appends it and re-sorts by `getTime` — with *no*
consecutiveness check.  The earlier version of the component (lines
102-131) additionally rejected non-consecutive additions; it is embedded as
`handleDateSelectV1`. -/

structure DateSlot where
  date : JSDate
  startTime : String
deriving DecidableEq

structure Booking where
  id : String
  dateSlots : List DateSlot
  fullName : String
  phoneNumber : String
  price : Int
  otherDetails : String
deriving DecidableEq

/-- The outcome of one `handleDateSelect` call: the new selection plus the
signal (when a booked date was clicked) to open the bookings dialog for that
date. -/
structure SelectResult where
  selectedDates : List JSDate
  openDialogFor : Option JSDate
deriving DecidableEq

/-- BookingCalendar.tsx `isDateBooked` (lines 498-502): some booking has a
slot on the same calendar day. -/
def isDateBooked (bookings : List Booking) (date : JSDate) : Bool :=
  bookings.any (fun b => b.dateSlots.any (fun slot => isSameDay slot.date date))

/-- `[...].sort((a, b) => a.getTime() - b.getTime())`: stable ascending sort
by instant. -/
def sortByTime (l : List JSDate) : List JSDate :=
  l.mergeSort (fun a b => decide (getTime a ≤ getTime b))

/-- BookingCalendar.tsx `handleDateSelect` (lines 510-528, current
version). -/
def handleDateSelect (bookings : List Booking) (selectedDates : List JSDate)
    (date : JSDate) : SelectResult :=
  if isDateBooked bookings date then
    ⟨selectedDates, some date⟩
  else if selectedDates.any (fun d => isSameDay d date) then
    ⟨selectedDates.filter (fun d => !isSameDay d date), none⟩
  else
    ⟨sortByTime (selectedDates ++ [date]), none⟩

/-- Adjacent-pair consecutiveness check of the earlier `handleDateSelect`
(lines 119-127): every consecutive pair of the sorted candidate list must
satisfy `isSameDay(addDays(prev, 1), curr)`. -/
def isConsecutive (l : List JSDate) : Bool :=
  (l.zip l.tail).all (fun p => isSameDay (addOneDay p.1) p.2)

/-- The earlier component's `BookingData`: plain `dates`, no start times. -/
structure BookingV1 where
  id : String
  dates : List JSDate
  fullName : String
  phoneNumber : String
  price : Int
  otherDetails : String
deriving DecidableEq

/-- BookingCalendar.tsx `handleDateSelect` (lines 102-131, earlier
version): as the current one, but a non-consecutive candidate set is
rejected (alert) and the selection left unchanged. -/
def handleDateSelectV1 (bookings : List BookingV1) (selectedDates : List JSDate)
    (date : JSDate) : SelectResult :=
  if bookings.any (fun b => b.dates.any (fun d => isSameDay d date)) then
    ⟨selectedDates, some date⟩
  else if selectedDates.any (fun d => isSameDay d date) then
    ⟨selectedDates.filter (fun d => !isSameDay d date), none⟩
  else
    let newDates := sortByTime (selectedDates ++ [date])
    if isConsecutive newDates then ⟨newDates, none⟩ else ⟨selectedDates, none⟩

/-! Branch characterizations of `handleDateSelect`. -/

theorem handleDateSelect_booked (bookings : List Booking) (sel : List JSDate)
    (date : JSDate) (h : isDateBooked bookings date = true) :
    handleDateSelect bookings sel date = ⟨sel, some date⟩ := by
  unfold handleDateSelect
  rw [h]
  simp

theorem handleDateSelect_toggle (bookings : List Booking) (sel : List JSDate)
    (date : JSDate) (hb : isDateBooked bookings date = false)
    (hs : sel.any (fun d => isSameDay d date) = true) :
    handleDateSelect bookings sel date =
      ⟨sel.filter (fun d => !isSameDay d date), none⟩ := by
  unfold handleDateSelect
  rw [hb, hs]
  simp

theorem handleDateSelect_add (bookings : List Booking) (sel : List JSDate)
    (date : JSDate) (hb : isDateBooked bookings date = false)
    (hs : sel.any (fun d => isSameDay d date) = false) :
    handleDateSelect bookings sel date = ⟨sortByTime (sel ++ [date]), none⟩ := by
  unfold handleDateSelect
  rw [hb, hs]
  simp

/-! Sortedness facts. -/

theorem sorted_sortByTime (l : List JSDate) :
    (sortByTime l).Pairwise (fun a b => getTime a ≤ getTime b) := by
  have h := @List.sorted_mergeSort JSDate (fun a b => decide (getTime a ≤ getTime b))
    (by
      intro a b c hab hbc
      simp only [decide_eq_true_eq] at *
      omega)
    (by
      intro a b
      simp only [Bool.or_eq_true, decide_eq_true_eq]
      omega)
    l
  exact h.imp (by intro a b hab; simpa using hab)

theorem isSameDay_comm (a b : JSDate) : isSameDay a b = isSameDay b a := by
  unfold isSameDay
  rcases Decidable.eq_or_ne (dayNumber a) (dayNumber b) with h | h
  · simp [h]
  · simp [h, Ne.symm h]

theorem getTime_strict (a b : JSDate) (ha : a.msInDay < 86400000)
    (hb : b.msInDay < 86400000) (hle : getTime a ≤ getTime b)
    (hday : isSameDay a b = false) : getTime a < getTime b := by
  unfold isSameDay at hday
  rw [beq_eq_false_iff_ne] at hday
  unfold getTime at *
  simp only [msPerDay] at *
  omega

/-! ### Concrete dates for the selection claims -/

def jan5 : JSDate := ⟨2026, 1, 5, 0⟩

def jan6 : JSDate := ⟨2026, 1, 6, 0⟩

def jan7 : JSDate := ⟨2026, 1, 7, 0⟩

def jan8 : JSDate := ⟨2026, 1, 8, 0⟩

/-- The earlier `handleDateSelect` did reject the non-consecutive addition
of Jan 8 to [Jan 5, Jan 6], leaving the selection unchanged. -/
example : handleDateSelectV1 [] [jan5, jan6] jan8 = ⟨[jan5, jan6], none⟩ := by
  have hsort : sortByTime ([jan5, jan6] ++ [jan8]) = [jan5, jan6, jan8] := by
    unfold sortByTime
    exact List.mergeSort_of_sorted (by decide)
  unfold handleDateSelectV1
  rw [show ([] : List BookingV1).any (fun b => b.dates.any (fun d => isSameDay d jan8)) = false
      from rfl]
  rw [show ([jan5, jan6] : List JSDate).any (fun d => isSameDay d jan8) = false from by decide]
  simp only [Bool.false_eq_true, if_false]
  rw [hsort]
  rw [show isConsecutive [jan5, jan6, jan8] = false from by decide]
  simp

/-- The earlier `handleDateSelect` accepted the consecutive addition of
Jan 7. -/
example : handleDateSelectV1 [] [jan5, jan6] jan7 = ⟨[jan5, jan6, jan7], none⟩ := by
  have hsort : sortByTime ([jan5, jan6] ++ [jan7]) = [jan5, jan6, jan7] := by
    unfold sortByTime
    exact List.mergeSort_of_sorted (by decide)
  unfold handleDateSelectV1
  rw [show ([] : List BookingV1).any (fun b => b.dates.any (fun d => isSameDay d jan7)) = false
      from rfl]
  rw [show ([jan5, jan6] : List JSDate).any (fun d => isSameDay d jan7) = false from by decide]
  simp only [Bool.false_eq_true, if_false]
  rw [hsort]
  rw [show isConsecutive [jan5, jan6, jan7] = true from by decide]
  simp

/-! ### Claim C6 -/

/-- Claim C6: with selection [Jan 5, Jan 6] and no bookings, clicking the
non-consecutive Jan 8 is *accepted* by the current `handleDateSelect` — the
selection becomes [Jan 5, Jan 6, Jan 8] — whereas the claim (and the
component's own UI strings, which still read "must be consecutive") demand
the addition be rejected with the selection left at [Jan 5, Jan 6].  The
consecutiveness validation of the earlier `handleDateSelect` was dropped in
the current version: the code contradicts its own documentation at this
input. -/
theorem c6_counterexample :
    handleDateSelect [] [jan5, jan6] jan8 = ⟨[jan5, jan6, jan8], none⟩ ∧
    ([jan5, jan6, jan8] : List JSDate) ≠ [jan5, jan6] := by
  constructor
  · have hsort : sortByTime ([jan5, jan6] ++ [jan8]) = [jan5, jan6, jan8] := by
      unfold sortByTime
      exact List.mergeSort_of_sorted (by decide)
    rw [handleDateSelect_add [] [jan5, jan6] jan8 rfl (by decide), hsort]
  · decide

/-- What the current `handleDateSelect` actually does in place of the
claimed behavior: no consecutiveness validation at all.  For every selection
and every clicked date that is neither booked nor already selected — whether
or not the resulting set is consecutive — the date is added and the
selection re-sorted ascending by instant; no rejection or
validation-failure signal occurs. -/
theorem c6_addition_never_rejected (bookings : List Booking) (sel : List JSDate)
    (date : JSDate) (hb : isDateBooked bookings date = false)
    (hs : sel.any (fun d => isSameDay d date) = false) :
    handleDateSelect bookings sel date = ⟨sortByTime (sel ++ [date]), none⟩ ∧
    (handleDateSelect bookings sel date).selectedDates.Pairwise
      (fun a b => getTime a ≤ getTime b) := by
  have h := handleDateSelect_add bookings sel date hb hs
  refine ⟨h, ?_⟩
  rw [h]
  exact sorted_sortByTime (sel ++ [date])

/-- Witness for `c6_addition_never_rejected`: the non-consecutive Jan 8
click on [Jan 5, Jan 6]. -/
theorem c6_witness :
    handleDateSelect [] [jan5, jan6] jan8 = ⟨sortByTime ([jan5, jan6] ++ [jan8]), none⟩ ∧
    (handleDateSelect [] [jan5, jan6] jan8).selectedDates.Pairwise
      (fun a b => getTime a ≤ getTime b) :=
  c6_addition_never_rejected [] [jan5, jan6] jan8 rfl (by decide)

/-! ### Claim C7 -/

/-- A booking occupying Jan 5 at 10:00, for the witnesses. -/
def demoBooking : Booking := ⟨"b1", [⟨jan5, "10:00"⟩], "Asha", "9876543210", 1500, ""⟩

/-- Claim C7: clicking a date that belongs to an existing booking leaves the
in-progress selection unchanged and signals opening of the per-date
bookings dialog for that date. -/
theorem c7_booked_click_opens_dialog (bookings : List Booking) (sel : List JSDate)
    (date : JSDate) (h : isDateBooked bookings date = true) :
    handleDateSelect bookings sel date = ⟨sel, some date⟩ :=
  handleDateSelect_booked bookings sel date h

/-- Witness for `c7_booked_click_opens_dialog`: clicking Jan 5 (afternoon
instant, same calendar day as the booked slot) with a pending selection
[Jan 7]. -/
theorem c7_witness :
    handleDateSelect [demoBooking] [jan7] ⟨2026, 1, 5, 52200000⟩ =
      ⟨[jan7], some ⟨2026, 1, 5, 52200000⟩⟩ :=
  c7_booked_click_opens_dialog [demoBooking] [jan7] ⟨2026, 1, 5, 52200000⟩ (by decide)

/-! ### Claim C10: the selection invariant -/

/-- The controller state reached from the empty selection by a sequence of
clicks. -/
def selectFold (bookings : List Booking) (clicks : List JSDate) : List JSDate :=
  clicks.foldl (fun sel c => (handleDateSelect bookings sel c).selectedDates) []

theorem selection_inv_step (bookings : List Booking) (sel : List JSDate) (c : JSDate)
    (hc : c.msInDay < 86400000)
    (h1 : sel.Pairwise (fun a b => getTime a < getTime b))
    (h2 : sel.Pairwise (fun a b => isSameDay a b = false))
    (h3 : ∀ x ∈ sel, x.msInDay < 86400000) :
    (handleDateSelect bookings sel c).selectedDates.Pairwise
        (fun a b => getTime a < getTime b) ∧
      (handleDateSelect bookings sel c).selectedDates.Pairwise
        (fun a b => isSameDay a b = false) ∧
      ∀ x ∈ (handleDateSelect bookings sel c).selectedDates, x.msInDay < 86400000 := by
  by_cases hb : isDateBooked bookings c = true
  · rw [handleDateSelect_booked bookings sel c hb]
    exact ⟨h1, h2, h3⟩
  · rw [Bool.not_eq_true] at hb
    by_cases hs : sel.any (fun d => isSameDay d c) = true
    · rw [handleDateSelect_toggle bookings sel c hb hs]
      refine ⟨List.Pairwise.sublist (List.filter_sublist sel) h1,
        List.Pairwise.sublist (List.filter_sublist sel) h2, ?_⟩
      intro x hx
      exact h3 x ((List.filter_sublist sel).mem hx)
    · rw [Bool.not_eq_true] at hs
      rw [handleDateSelect_add bookings sel c hb hs]
      have hperm : (sortByTime (sel ++ [c])).Perm (sel ++ [c]) :=
        List.mergeSort_perm (sel ++ [c]) _
      have hmem : ∀ x ∈ sortByTime (sel ++ [c]), x.msInDay < 86400000 := by
        intro x hx
        have hx2 : x ∈ sel ++ [c] := hperm.mem_iff.mp hx
        rw [List.mem_append] at hx2
        rcases hx2 with hx2 | hx2
        · exact h3 x hx2
        · rw [List.mem_singleton] at hx2
          subst hx2
          exact hc
      have hfresh : ∀ a ∈ sel, isSameDay a c = false := by
        intro a ha
        rcases Bool.eq_false_or_eq_true (isSameDay a c) with htrue | hfalse
        · exact absurd (List.any_eq_true.mpr ⟨a, ha, htrue⟩) (by rw [hs]; exact Bool.false_ne_true)
        · exact hfalse
      have hdistinct : (sortByTime (sel ++ [c])).Pairwise
          (fun a b => isSameDay a b = false) := by
        have happ : (sel ++ [c]).Pairwise (fun a b => isSameDay a b = false) := by
          rw [List.pairwise_append]
          refine ⟨h2, List.pairwise_singleton _ _, ?_⟩
          intro a ha b hbmem
          rw [List.mem_singleton] at hbmem
          subst hbmem
          exact hfresh a ha
        exact happ.perm hperm.symm
          (by intro x y hxy; rw [isSameDay_comm]; exact hxy)
      have hsorted : (sortByTime (sel ++ [c])).Pairwise
          (fun a b => getTime a ≤ getTime b) := sorted_sortByTime (sel ++ [c])
      refine ⟨?_, hdistinct, hmem⟩
      have hand := hsorted.and hdistinct
      exact hand.imp_of_mem
        (by
          intro a b hamem hbmem hab
          exact getTime_strict a b (hmem a hamem) (hmem b hbmem) hab.1 hab.2)

theorem selection_inv_fold (bookings : List Booking) (clicks : List JSDate) :
    ∀ sel : List JSDate, (∀ x ∈ clicks, x.msInDay < 86400000) →
      sel.Pairwise (fun a b => getTime a < getTime b) →
      sel.Pairwise (fun a b => isSameDay a b = false) →
      (∀ x ∈ sel, x.msInDay < 86400000) →
      (clicks.foldl (fun s c => (handleDateSelect bookings s c).selectedDates) sel).Pairwise
          (fun a b => getTime a < getTime b) ∧
        (clicks.foldl (fun s c => (handleDateSelect bookings s c).selectedDates) sel).Pairwise
          (fun a b => isSameDay a b = false) ∧
        ∀ x ∈ clicks.foldl (fun s c => (handleDateSelect bookings s c).selectedDates) sel,
          x.msInDay < 86400000 := by
  induction clicks with
  | nil =>
      intro sel _ h1 h2 h3
      exact ⟨h1, h2, h3⟩
  | cons c cs ih =>
      intro sel hval h1 h2 h3
      have hc : c.msInDay < 86400000 := hval c (by simp)
      have hstep := selection_inv_step bookings sel c hc h1 h2 h3
      simp only [List.foldl_cons]
      exact ih _ (fun x hx => hval x (by simp [hx])) hstep.1 hstep.2.1 hstep.2.2

/-- Claim C10: starting from the empty selection, after any sequence of
clicks (on valid dates), the selection is sorted strictly ascending by
instant and holds at most one entry per calendar day; moreover an accepted
addition is exactly sorted insertion, and a toggle-off is exactly the
order-preserving removal of every entry of the clicked calendar day. -/
theorem c10_selection_invariant (bookings : List Booking) (clicks : List JSDate)
    (hval : ∀ x ∈ clicks, x.msInDay < 86400000) :
    (selectFold bookings clicks).Pairwise (fun a b => getTime a < getTime b) ∧
    (selectFold bookings clicks).Pairwise (fun a b => isSameDay a b = false) ∧
    (∀ sel (c : JSDate), isDateBooked bookings c = false →
      sel.any (fun d => isSameDay d c) = false →
      (handleDateSelect bookings sel c).selectedDates = sortByTime (sel ++ [c])) ∧
    (∀ sel (c : JSDate), isDateBooked bookings c = false →
      sel.any (fun d => isSameDay d c) = true →
      (handleDateSelect bookings sel c).selectedDates =
        sel.filter (fun d => !isSameDay d c)) := by
  have h := selection_inv_fold bookings clicks [] hval List.Pairwise.nil
    List.Pairwise.nil (by intro x hx; cases hx)
  refine ⟨h.1, h.2.1, ?_, ?_⟩
  · intro sel c hb hs
    rw [handleDateSelect_add bookings sel c hb hs]
  · intro sel c hb hs
    rw [handleDateSelect_toggle bookings sel c hb hs]

/-- Witness for `c10_selection_invariant` on the click sequence
[Jan 6, Jan 8, Jan 5]. -/
theorem c10_witness :
    (∀ x ∈ [jan6, jan8, jan5], x.msInDay < 86400000) ∧
    (selectFold [] [jan6, jan8, jan5]).Pairwise (fun a b => getTime a < getTime b) ∧
    (selectFold [] [jan6, jan8, jan5]).Pairwise (fun a b => isSameDay a b = false) :=
  ⟨by decide,
   (c10_selection_invariant [] [jan6, jan8, jan5] (by decide)).1,
   (c10_selection_invariant [] [jan6, jan8, jan5] (by decide)).2.1⟩

/-! ### The notification scheduler (bookingService.ts lines 181-765)

Reminders live in an IndexedDB object store keyed by `id`
(`store.put` upserts by key).  `ScheduledNotification`'s display-payload
fields (`title`, `body`, `phoneNumber`, `fullName`, `price`,
`otherDetails`, `allDateSlots`) are write-only data never read back by the
scheduling or due-check logic, so they are not modelled; the fields the
logic reads are kept.  Instants (`Date.toISOString()` round-tripped through
`new Date(...)`) are modelled as `getTime` values. -/

structure SchedNotif where
  id : String
  bookingId : String
  notificationDate : Int
  bookedDate : Int
  shown : Bool
deriving DecidableEq

/-- `padStart(4, '0')` on a string, as date-fns `yyyy` pads years. -/
def padStart4 (s : String) : String :=
  if s.length < 4 then ⟨List.replicate (4 - s.length) '0'⟩ ++ s else s

/-- date-fns `format(date, 'yyyy-MM-dd')`. -/
def formatYyyyMmDd (dt : JSDate) : String :=
  padStart4 (Nat.repr dt.year) ++ "-" ++ pad2 dt.month ++ "-" ++ pad2 dt.day

theorem formatYyyyMmDd_eq_formatDateToLocal (dt : JSDate)
    (hy1 : 1000 ≤ dt.year) (hy2 : dt.year ≤ 9999) :
    formatYyyyMmDd dt = formatDateToLocal dt := by
  unfold formatYyyyMmDd formatDateToLocal padStart4
  rw [repr_year_length dt.year hy1 hy2]
  simp

/-- The reminder key ``` `${booking.id}-${format(targetDate, 'yyyy-MM-dd')}` ```. -/
def notificationId (bookingId : String) (dt : JSDate) : String :=
  bookingId ++ "-" ++ formatYyyyMmDd dt

/-- IndexedDB `store.put`: upsert by the `id` key. -/
def idbPut (store : List SchedNotif) (n : SchedNotif) : List SchedNotif :=
  store.filter (fun m => m.id != n.id) ++ [n]

/-- `calculateNotificationDate` (lines 234-236): booked date minus 15
days. -/
def calculateNotificationDate (bookedDate : JSDate) : Int :=
  getTime bookedDate - 15 * msPerDay

/-- `scheduleNotification` (lines 278-331): skip when the reminder time has
already passed (`notificationDate <= now`), otherwise store the reminder
under the booking-and-date key.  Newly stored reminders carry no `shown`
mark. -/
def scheduleNotification (store : List SchedNotif) (bookingId : String)
    (slot : DateSlot) (now : Int) : List SchedNotif :=
  if calculateNotificationDate slot.date ≤ now then store
  else
    idbPut store
      ⟨notificationId bookingId slot.date, bookingId,
        calculateNotificationDate slot.date, getTime slot.date, false⟩

/-- `hasNotificationsScheduled` (lines 499-532): any stored reminder owned
by the booking id. -/
def hasNotificationsScheduled (store : List SchedNotif) (bookingId : String) : Bool :=
  store.any (fun n => n.bookingId == bookingId)

/-- `removeNotificationsForBooking` (lines 410-450). -/
def removeNotificationsForBooking (store : List SchedNotif) (bookingId : String) :
    List SchedNotif :=
  store.filter (fun n => n.bookingId != bookingId)

/-- `scheduleBookingNotifications` (lines 457-494): no-op without
notification permission; skip when reminders already exist and no reschedule
is forced; otherwise clear the booking's reminders and schedule one per date
slot. -/
def scheduleBookingNotifications (store : List SchedNotif) (booking : Booking)
    (forceReschedule : Bool) (now : Int) (permission : Bool) : List SchedNotif :=
  if !permission then store
  else if !forceReschedule && hasNotificationsScheduled store booking.id then store
  else
    booking.dateSlots.foldl (fun st slot => scheduleNotification st booking.id slot now)
      (removeNotificationsForBooking store booking.id)

/-- `cleanupOldNotifications` (lines 623-673): delete every reminder whose
booked date has passed. -/
def cleanupOldNotifications (store : List SchedNotif) (now : Int) : List SchedNotif :=
  store.filter (fun n => !(decide (n.bookedDate < now)))

/-- `checkAndShowDueNotifications` (lines 678-765): after the cleanup pass,
show every reminder that is due (`notificationDate <= now`), not yet past
its booked date (`now <= bookedDate`) and not yet shown, then delete the
shown reminders by id.  Returns the shown reminders and the resulting
store. -/
def checkAndShowDueNotifications (store : List SchedNotif) (now : Int)
    (permission : Bool) : List SchedNotif × List SchedNotif :=
  if !permission then ([], store)
  else
    let st1 := cleanupOldNotifications store now
    let toShow := st1.filter (fun n =>
      decide (n.notificationDate ≤ now) && decide (now ≤ n.bookedDate) && !n.shown)
    let ids := toShow.map (fun n => n.id)
    (toShow, st1.filter (fun n => !(ids.contains n.id)))

/-! ### Claim C8 -/

theorem notificationId_ne (bid : String) (a b : JSDate)
    (ha : 1000 ≤ a.year ∧ a.year ≤ 9999 ∧ a.month < 100 ∧ a.day < 100)
    (hb : 1000 ≤ b.year ∧ b.year ≤ 9999 ∧ b.month < 100 ∧ b.day < 100)
    (hne : ¬(a.year = b.year ∧ a.month = b.month ∧ a.day = b.day)) :
    notificationId bid a ≠ notificationId bid b := by
  intro h
  unfold notificationId at h
  have hdata := congrArg String.data h
  rw [String.data_append, String.data_append, String.data_append,
    String.data_append] at hdata
  have hfd := List.append_cancel_left hdata
  have hf : formatYyyyMmDd a = formatYyyyMmDd b := String.ext hfd
  rw [formatYyyyMmDd_eq_formatDateToLocal a ha.1 ha.2.1,
    formatYyyyMmDd_eq_formatDateToLocal b hb.1 hb.2.1] at hf
  exact hne (formatDateToLocal_inj a b ha.1 ha.2.1 ha.2.2.1 ha.2.2.2
    hb.1 hb.2.1 hb.2.2.1 hb.2.2.2 hf)

theorem schedule_fold_count (bid : String) (now : Int) :
    ∀ (slots : List DateSlot) (st : List SchedNotif),
      (∀ s ∈ slots, now < calculateNotificationDate s.date) →
      (∀ s ∈ slots, ∀ n ∈ st, n.bookingId = bid → n.id ≠ notificationId bid s.date) →
      slots.Pairwise (fun s t => notificationId bid s.date ≠ notificationId bid t.date) →
      ((slots.foldl (fun acc slot => scheduleNotification acc bid slot now) st).filter
          (fun n => n.bookingId == bid)).length
        = (st.filter (fun n => n.bookingId == bid)).length + slots.length := by
  intro slots
  induction slots with
  | nil =>
      intro st _ _ _
      simp
  | cons s ss ih =>
      intro st hfut hfresh hpair
      have hs : now < calculateNotificationDate s.date := hfut s (by simp)
      have hsched : scheduleNotification st bid s now =
          st.filter (fun m => m.id != notificationId bid s.date) ++
            [⟨notificationId bid s.date, bid, calculateNotificationDate s.date,
              getTime s.date, false⟩] := by
        unfold scheduleNotification idbPut
        rw [if_neg (by omega)]
      have hcount : ((scheduleNotification st bid s now).filter
          (fun n => n.bookingId == bid)).length
          = (st.filter (fun n => n.bookingId == bid)).length + 1 := by
        rw [hsched, List.filter_append]
        have h1 : (st.filter (fun m => m.id != notificationId bid s.date)).filter
            (fun n => n.bookingId == bid) = st.filter (fun n => n.bookingId == bid) := by
          rw [List.filter_filter]
          apply List.filter_congr
          intro n hn
          by_cases hbid : n.bookingId = bid
          · have hnid : n.id ≠ notificationId bid s.date := hfresh s (by simp) n hn hbid
            simp [hbid, hnid]
          · simp [hbid]
        rw [h1]
        simp
      have hfreshnext : ∀ t ∈ ss, ∀ n ∈ scheduleNotification st bid s now,
          n.bookingId = bid → n.id ≠ notificationId bid t.date := by
        intro t ht n hn hbid
        rw [hsched, List.mem_append] at hn
        rcases hn with hn | hn
        · exact hfresh t (by simp [ht]) n (List.mem_of_mem_filter hn) hbid
        · rw [List.mem_singleton] at hn
          subst hn
          exact (List.pairwise_cons.mp hpair).1 t ht
      have hpairnext := (List.pairwise_cons.mp hpair).2
      simp only [List.foldl_cons]
      rw [ih (scheduleNotification st bid s now) (fun t ht => hfut t (by simp [ht]))
        hfreshnext hpairnext, hcount]
      simp [Nat.add_assoc, Nat.add_comm]

theorem any_of_filter_length_pos {p : SchedNotif → Bool} {l : List SchedNotif}
    (h : 0 < (l.filter p).length) : l.any p = true := by
  rw [List.length_pos] at h
  obtain ⟨n, hn⟩ := List.exists_mem_of_ne_nil _ h
  rw [List.mem_filter] at hn
  exact List.any_eq_true.mpr ⟨n, hn.1, hn.2⟩

theorem scheduleBookingNotifications_skip (store : List SchedNotif) (b : Booking)
    (now : Int) (h : hasNotificationsScheduled store b.id = true) :
    scheduleBookingNotifications store b false now true = store := by
  unfold scheduleBookingNotifications
  rw [h]
  simp

/-- Claim C8: with notification permission granted, for a booking with at
least one date slot — slots on pairwise distinct calendar dates, all
reminder times still in the future — scheduling into a store holding no
reminders for that booking creates exactly one reminder per date slot, and
a second scheduling call without forced reschedule observes the existing
reminders and creates nothing: the store is unchanged. -/
theorem c8_schedule_idempotent (store : List SchedNotif) (b : Booking) (now : Int)
    (hnone : ∀ n ∈ store, n.bookingId ≠ b.id)
    (hne : b.dateSlots ≠ [])
    (hfut : ∀ s ∈ b.dateSlots, now < calculateNotificationDate s.date)
    (hbounds : ∀ s ∈ b.dateSlots,
      1000 ≤ s.date.year ∧ s.date.year ≤ 9999 ∧ s.date.month < 100 ∧ s.date.day < 100)
    (hdays : b.dateSlots.Pairwise (fun s t =>
      ¬(s.date.year = t.date.year ∧ s.date.month = t.date.month ∧
        s.date.day = t.date.day))) :
    ((scheduleBookingNotifications store b false now true).filter
        (fun n => n.bookingId == b.id)).length = b.dateSlots.length ∧
    scheduleBookingNotifications (scheduleBookingNotifications store b false now true)
        b false now true = scheduleBookingNotifications store b false now true := by
  have hhas : hasNotificationsScheduled store b.id = false := by
    unfold hasNotificationsScheduled
    rcases Bool.eq_false_or_eq_true (store.any fun n => n.bookingId == b.id) with h | h
    · obtain ⟨n, hn, hbeq⟩ := List.any_eq_true.mp h
      exact absurd (by simpa using hbeq) (hnone n hn)
    · exact h
  have hfirst : scheduleBookingNotifications store b false now true =
      b.dateSlots.foldl (fun st slot => scheduleNotification st b.id slot now)
        (removeNotificationsForBooking store b.id) := by
    unfold scheduleBookingNotifications
    rw [hhas]
    simp
  have hclear : ((removeNotificationsForBooking store b.id).filter
      (fun n => n.bookingId == b.id)).length = 0 := by
    unfold removeNotificationsForBooking
    rw [List.filter_filter]
    have hnil : store.filter (fun n => (n.bookingId == b.id) && (n.bookingId != b.id)) = [] := by
      rw [List.filter_eq_nil_iff]
      intro n _
      by_cases hbid : n.bookingId = b.id <;> simp [hbid]
    rw [hnil]
    rfl
  have hpairids : b.dateSlots.Pairwise (fun s t =>
      notificationId b.id s.date ≠ notificationId b.id t.date) := by
    refine List.Pairwise.imp_of_mem ?_ hdays
    intro s t hsm htm hne'
    exact notificationId_ne b.id s.date t.date (hbounds s hsm) (hbounds t htm) hne'
  have hfreshinit : ∀ s ∈ b.dateSlots, ∀ n ∈ removeNotificationsForBooking store b.id,
      n.bookingId = b.id → n.id ≠ notificationId b.id s.date := by
    intro s _ n hn hbid
    unfold removeNotificationsForBooking at hn
    rw [List.mem_filter] at hn
    exact absurd hbid (by simpa using hn.2)
  have hcount : ((scheduleBookingNotifications store b false now true).filter
      (fun n => n.bookingId == b.id)).length = b.dateSlots.length := by
    rw [hfirst, schedule_fold_count b.id now b.dateSlots _ hfut hfreshinit hpairids, hclear]
    omega
  refine ⟨hcount, ?_⟩
  have hhas2 : hasNotificationsScheduled (scheduleBookingNotifications store b false now true)
      b.id = true := by
    apply any_of_filter_length_pos
    rw [hcount]
    exact List.length_pos.mpr hne
  exact scheduleBookingNotifications_skip _ b now hhas2

/-- The booking used by the C8 witness: two slots on consecutive February
days. -/
def bookingAB : Booking :=
  ⟨"b1", [⟨⟨2026, 2, 1, 0⟩, "10:00"⟩, ⟨⟨2026, 2, 2, 0⟩, "10:00"⟩],
    "Asha", "9876543210", 1500, ""⟩

/-- Witness for `c8_schedule_idempotent` on a two-slot booking scheduled at
epoch instant 0. -/
theorem c8_witness :
    ((scheduleBookingNotifications [] bookingAB false 0 true).filter
        (fun n => n.bookingId == bookingAB.id)).length = 2 ∧
    scheduleBookingNotifications (scheduleBookingNotifications [] bookingAB false 0 true)
        bookingAB false 0 true = scheduleBookingNotifications [] bookingAB false 0 true := by
  have h := c8_schedule_idempotent [] bookingAB 0 (by intro n hn; cases hn) (by decide)
    (by decide) (by decide) (by decide)
  exact ⟨by rw [h.1]; rfl, h.2⟩

/-! ### Claim C9 -/

/-- Claim C9: on a store with distinct reminder keys (the IndexedDB key
invariant), the due-check (i) shows exactly the pending reminders whose
reminder time has passed and whose booked date has not, (ii) removes —
without showing — every reminder whose booked date has passed, regardless of
its reminder time, (iii) removes every shown reminder from the store, and
(iv) keeps every other reminder. -/
theorem c9_due_check (store : List SchedNotif) (now : Int)
    (hids : store.Pairwise (fun a b => a.id ≠ b.id)) :
    (checkAndShowDueNotifications store now true).1 =
      store.filter (fun n =>
        decide (n.notificationDate ≤ now) && decide (now ≤ n.bookedDate) && !n.shown) ∧
    (∀ n ∈ store, n.bookedDate < now →
      n ∉ (checkAndShowDueNotifications store now true).1 ∧
      n ∉ (checkAndShowDueNotifications store now true).2) ∧
    (∀ n ∈ (checkAndShowDueNotifications store now true).1,
      n ∉ (checkAndShowDueNotifications store now true).2) ∧
    (∀ n ∈ store, ¬(n.bookedDate < now) →
      ¬(n.notificationDate ≤ now ∧ now ≤ n.bookedDate ∧ n.shown = false) →
      n ∈ (checkAndShowDueNotifications store now true).2) := by
  set dueF := fun (n : SchedNotif) =>
    decide (n.notificationDate ≤ now) && decide (now ≤ n.bookedDate) && !n.shown with hdueF
  set st1 := cleanupOldNotifications store now with hst1
  have hpair : checkAndShowDueNotifications store now true =
      (st1.filter dueF,
        st1.filter (fun n => !(((st1.filter dueF).map (fun m => m.id)).contains n.id))) := by
    unfold checkAndShowDueNotifications
    simp [hdueF, hst1]
  have hdueP : ∀ n : SchedNotif, dueF n = true ↔
      (n.notificationDate ≤ now ∧ now ≤ n.bookedDate ∧ n.shown = false) := by
    intro n
    rw [hdueF]
    simp [Bool.and_eq_true, Bool.not_eq_true', and_assoc]
  have hfst : (checkAndShowDueNotifications store now true).1 = store.filter dueF := by
    rw [hpair]
    show st1.filter dueF = store.filter dueF
    rw [hst1]
    unfold cleanupOldNotifications
    rw [List.filter_filter]
    apply List.filter_congr
    intro n _
    by_cases h2 : now ≤ n.bookedDate
    · have hk : ¬(n.bookedDate < now) := by omega
      simp [hk]
    · have hd2 : decide (now ≤ n.bookedDate) = false := decide_eq_false h2
      rw [hdueF]
      simp [hd2]
  refine ⟨hfst, ?_, ?_, ?_⟩
  · intro n hn hpast
    constructor
    · intro hmem
      rw [hfst, List.mem_filter, hdueP] at hmem
      omega
    · intro hmem
      rw [hpair] at hmem
      have hmem1 : n ∈ st1 := List.mem_of_mem_filter hmem
      rw [hst1] at hmem1
      unfold cleanupOldNotifications at hmem1
      rw [List.mem_filter] at hmem1
      have := hmem1.2
      simp only [Bool.not_eq_true', decide_eq_false_iff_not] at this
      exact this hpast
  · intro n hmem1 hmem2
    have hid : n.id ∈ (st1.filter dueF).map (fun m => m.id) := by
      rw [hpair] at hmem1
      exact List.mem_map_of_mem (fun m => m.id) hmem1
    rw [hpair] at hmem2
    rw [List.mem_filter] at hmem2
    have := hmem2.2
    rw [Bool.not_eq_true', ← Bool.not_eq_true] at this
    exact this (contains_of_mem hid)
  · intro n hn hkeep hnotdue
    have hnst1 : n ∈ st1 := by
      rw [hst1]
      unfold cleanupOldNotifications
      rw [List.mem_filter]
      exact ⟨hn, by simp [hkeep]⟩
    have hnid : ¬ n.id ∈ (st1.filter dueF).map (fun m => m.id) := by
      intro hidmem
      rw [List.mem_map] at hidmem
      obtain ⟨m, hm, hmid⟩ := hidmem
      rw [List.mem_filter] at hm
      have hmstore : m ∈ store := by
        have := hm.1
        rw [hst1] at this
        exact List.mem_of_mem_filter this
      have hmne : m ≠ n := by
        intro heq
        subst heq
        exact hnotdue ((hdueP m).mp hm.2)
      have : m.id ≠ n.id :=
        List.Pairwise.forall (fun x y hxy => Ne.symm hxy) hids hmstore hn hmne
      exact this hmid
    rw [hpair]
    rw [List.mem_filter]
    refine ⟨hnst1, ?_⟩
    rcases Bool.eq_false_or_eq_true
        (((st1.filter dueF).map (fun m => m.id)).contains n.id) with hco | hco
    · exact absurd (by simpa using hco) hnid
    · rw [hco]
      rfl

/-- A reminder due now: reminder time passed, booked date ahead. -/
def n1 : SchedNotif := ⟨"a", "b1", -100, 500, false⟩

/-- A reminder whose booked date has passed but whose reminder time has
not. -/
def n2 : SchedNotif := ⟨"b", "b1", 100, -50, false⟩

/-- Witness for `c9_due_check` at instant 0: `n1` is shown and removed,
`n2` is removed without being shown. -/
theorem c9_witness :
    (checkAndShowDueNotifications [n1, n2] 0 true).1 = [n1] ∧
    n2 ∉ (checkAndShowDueNotifications [n1, n2] 0 true).2 ∧
    n1 ∉ (checkAndShowDueNotifications [n1, n2] 0 true).2 := by
  have h := c9_due_check [n1, n2] 0 (by decide)
  refine ⟨?_, ?_, ?_⟩
  · rw [h.1]
    decide
  · exact (h.2.1 n2 (by decide) (by decide)).2
  · exact h.2.2.1 n1 (by rw [h.1]; decide)

end DateSlotBuddy
